import Mathlib

/-!
Verification of the markdown-downloader MCP server (src/index.ts).

The development shallowly embeds the configuration store (`getConfig`,
`saveConfig`), the filename codec (`sanitizeFilename`, `generateFilename`),
the path resolution performed inline by the tool handlers (Node's
`path.join` / `path.dirname` on POSIX-style separators), and the five tool
handlers themselves, over an explicit filesystem state.  I/O failures that
the TypeScript code catches are modelled by an explicit fault parameter
naming the operation that throws (at most one operation throws per call,
which suffices because the first throw aborts the `try` block).
-/

namespace MarkdownDownloader

/-! ### Path strings (Node `path.join` / `path.dirname`, POSIX separators) -/

/-- Split a character list on `'/'` (like `String.split` on the separator:
`splitSlash "a/b" = [['a'],['b']]`, keeping empty segments). -/
def splitSlash : List Char → List (List Char)
  | [] => [[]]
  | c :: rest =>
    if c = '/' then [] :: splitSlash rest
    else
      match splitSlash rest with
      | [] => [[c]]
      | p :: ps => (c :: p) :: ps

/-- Join segments with `'/'` separators (inverse of `splitSlash`). -/
def joinWithSlash : List (List Char) → List Char
  | [] => []
  | [x] => x
  | x :: xs => x ++ '/' :: joinWithSlash xs

/-- A path segment that survives normalisation: neither empty nor `"."`. -/
def keepPart (p : List Char) : Bool :=
  !(p == []) && !(p == ['.'])

/-- A segment that is neither `"."` nor `".."`. -/
def goodPart (p : List Char) : Bool :=
  !(p == ['.']) && !(p == ['.', '.'])

/-- One step of Node's path normalisation: drop empty and `"."` segments,
let `".."` pop the previous segment (at the top of an absolute path it is
dropped, at the top of a relative path it is kept). The accumulator holds
the output segments in reverse. -/
def normStep (abs : Bool) (acc : List (List Char)) (p : List Char) : List (List Char) :=
  if p = [] ∨ p = ['.'] then acc
  else if p = ['.', '.'] then
    match acc with
    | [] => if abs then [] else [['.', '.']]
    | q :: rest => if q = ['.', '.'] then p :: acc else rest
  else p :: acc

/-- Normalise a segment list the way Node's `path.normalize` does. -/
def normalizeParts (abs : Bool) (l : List (List Char)) : List (List Char) :=
  (l.foldl (normStep abs) []).reverse

/-- Render normalised segments back into a path string's characters. -/
def renderPath (abs : Bool) (parts : List (List Char)) : List Char :=
  match parts with
  | [] => if abs then ['/'] else ['.']
  | _ => (if abs then ['/'] else []) ++ joinWithSlash parts

/-- Whether a string starts with the `'/'` character. -/
def startsWithSlash (s : String) : Bool :=
  match s.data with
  | [] => false
  | c :: _ => c == '/'

/-- Node's `path.join(...ps)` on POSIX separators: drop empty arguments,
concatenate with `'/'`, then normalise.  `path.join()` of nothing is `"."`. -/
def joinPath (ps : List String) : String :=
  match ps.filter (fun p => p != "") with
  | [] => "."
  | first :: rest =>
    let abs := startsWithSlash first
    let allParts := ((first :: rest).map (fun p => splitSlash p.data)).flatten
    ⟨renderPath abs (normalizeParts abs allParts)⟩

/-- Node's `path.dirname` on POSIX separators (for the normalised paths the
server produces): all segments but the last. -/
def dirname (p : String) : String :=
  let abs := startsWithSlash p
  let parts := (splitSlash p.data).filter (fun q => q != [])
  match parts.dropLast with
  | [] => if abs then "/" else "."
  | init => ⟨(if abs then ['/'] else []) ++ joinWithSlash init⟩

/-- The non-empty, non-`"."` segments of a path string. -/
def pathParts (s : String) : List (List Char) :=
  (splitSlash s.data).filter keepPart

/-- `p` lies under `root`: the segments of `root` are an initial run of the
segments of `p`. -/
def underRoot (root p : String) : Bool :=
  (pathParts root).isPrefixOf (pathParts p)

/-- No segment of `s` is `".."`. -/
def noUpwards (s : String) : Bool :=
  (splitSlash s.data).all (fun p => !(p == ['.', '.']))

/-- No segment of `s` is `"."` or `".."` (the root is in canonical form). -/
def cleanParts (s : String) : Bool :=
  (splitSlash s.data).all goodPart

/-! ### Platform constants (src/index.ts lines 16-41) -/

/-- The runtime platform facts the code consults: `process.platform`
(`'win32'` or not), `os.homedir()`, and `process.env.APPDATA`. -/
structure Platform where
  win32 : Bool
  homedir : String
  appdata : Option String

/-- `configBasePath`: `path.join(APPDATA || homedir, 'markdown-downloader')`
on Windows, `path.join(homedir, '.config', 'markdown-downloader')`
otherwise.  An unset or empty `APPDATA` is falsy in JS and falls back to
the home directory. -/
def configBasePath (plat : Platform) : String :=
  if plat.win32 then
    let base := match plat.appdata with
      | some a => if a = "" then plat.homedir else a
      | none => plat.homedir
    joinPath [base, "markdown-downloader"]
  else
    joinPath [plat.homedir, ".config", "markdown-downloader"]

/-- `CONFIG_DIR = configBasePath`. -/
def CONFIG_DIR (plat : Platform) : String := configBasePath plat

/-- `CONFIG_FILE = path.join(CONFIG_DIR, 'config.json')`. -/
def CONFIG_FILE (plat : Platform) : String :=
  joinPath [CONFIG_DIR plat, "config.json"]

/-- `getDefaultDownloadDir`: `Documents/markdown-downloads` under the home
directory on Windows, `~/.markdown-downloads` elsewhere. -/
def getDefaultDownloadDir (plat : Platform) : String :=
  if plat.win32 then joinPath [plat.homedir, "Documents", "markdown-downloads"]
  else joinPath [plat.homedir, ".markdown-downloads"]

/-- The persisted configuration record (`MarkdownDownloaderConfig`). -/
structure MarkdownDownloaderConfig where
  downloadDirectory : String
  deriving DecidableEq, Repr

/-- The fallback/default record built from the platform default directory. -/
def defaultConfig (plat : Platform) : MarkdownDownloaderConfig :=
  ⟨getDefaultDownloadDir plat⟩

/-! ### Filename codec (src/index.ts lines 119-144) -/

/-- The ASCII-alphanumeric test of the regex character class `[^a-z0-9]`
with the `i` flag: `a-z`, `A-Z`, `0-9`. -/
def isAsciiAlphanum (c : Char) : Bool :=
  ('a' ≤ c && c ≤ 'z') || ('A' ≤ c && c ≤ 'Z') || ('0' ≤ c && c ≤ '9')

/-- `.replace(/[^a-z0-9]/gi, '-')` on one character. -/
def dashifyChar (c : Char) : Char :=
  if isAsciiAlphanum c then c else '-'

/-- JavaScript `toLowerCase` restricted to the characters that can reach it
here (ASCII alphanumerics and `'-'`): map `A-Z` to `a-z`, fix the rest. -/
def jsToLower (c : Char) : Char :=
  match c with
  | 'A' => 'a' | 'B' => 'b' | 'C' => 'c' | 'D' => 'd' | 'E' => 'e'
  | 'F' => 'f' | 'G' => 'g' | 'H' => 'h' | 'I' => 'i' | 'J' => 'j'
  | 'K' => 'k' | 'L' => 'l' | 'M' => 'm' | 'N' => 'n' | 'O' => 'o'
  | 'P' => 'p' | 'Q' => 'q' | 'R' => 'r' | 'S' => 's' | 'T' => 't'
  | 'U' => 'u' | 'V' => 'v' | 'W' => 'w' | 'X' => 'x' | 'Y' => 'y'
  | 'Z' => 'z'
  | other => other

/-- `.replace(/^https?:\/\//, '')`: strip one leading `http://` or
`https://` (the regex is anchored and applied once). -/
def stripSchemeCore (l : List Char) : List Char :=
  if "http://".data.isPrefixOf l then l.drop 7
  else if "https://".data.isPrefixOf l then l.drop 8
  else l

/-- The body of `sanitizeFilename`: strip the scheme, dash-substitute, then
lowercase (in the order the code chains the calls). -/
def sanitizeCore (l : List Char) : List Char :=
  ((stripSchemeCore l).map dashifyChar).map jsToLower

/-- `sanitizeFilename(url)` (src/index.ts lines 119-125). -/
def sanitizeFilename (url : String) : String :=
  ⟨sanitizeCore url.data⟩

/-- Whether a string starts with `http://` or `https://`. -/
def hasScheme (s : String) : Bool :=
  "http://".data.isPrefixOf s.data || "https://".data.isPrefixOf s.data

/-- The sanitiser as the specification words it: strip one leading
`http://` or `https://` scheme, replace every character outside the ASCII
alphanumeric set with a dash, then lowercase the result. -/
def specSanitize (url : String) : String :=
  let stripped :=
    if "http://".data.isPrefixOf url.data then url.data.drop 7
    else if "https://".data.isPrefixOf url.data then url.data.drop 8
    else url.data
  ⟨stripped.map (fun c => jsToLower (if c.isAlphanum then c else '-'))⟩

/-- A decimal digit character; only ever applied to values below 10. -/
def digitChar (n : Nat) : Char :=
  match n with
  | 0 => '0' | 1 => '1' | 2 => '2' | 3 => '3' | 4 => '4'
  | 5 => '5' | 6 => '6' | 7 => '7' | 8 => '8' | _ => '9'

/-- The eight characters of the datestamp the code computes from
`new Date().toISOString()` by taking the part before `'T'` and removing
the dashes: the UTC calendar date rendered as zero-padded `YYYYMMDD`. -/
def datestampChars (y m d : Nat) : List Char :=
  [digitChar (y / 1000 % 10), digitChar (y / 100 % 10),
   digitChar (y / 10 % 10), digitChar (y % 10),
   digitChar (m / 10 % 10), digitChar (m % 10),
   digitChar (d / 10 % 10), digitChar (d % 10)]

/-- The `YYYYMMDD` datestamp as a string. -/
def formatDatestamp (y m d : Nat) : String :=
  ⟨datestampChars y m d⟩

/-- `generateFilename(url)` (src/index.ts lines 140-144), with the UTC
calendar date at call time passed explicitly. -/
def generateFilename (url : String) (y m d : Nat) : String :=
  sanitizeFilename url ++ "-" ++ formatDatestamp y m d ++ ".md"

/-! ### Filesystem state and the configuration store (src/index.ts 60-104) -/

/-- The filesystem facts the server touches.  `configFile` holds the state
of `CONFIG_FILE`: `none` when absent, `some none` when present but not
parseable as JSON, `some (some c)` when it parses to the record `c`.
`writable` is the oracle behind `fs.access(p, W_OK)` and `errMsg` the
message of the error an operation on `p` throws; `entries` is the oracle
behind `fs.readdir`. -/
structure FsState where
  dirs : List String
  files : List String
  configFile : Option (Option MarkdownDownloaderConfig)
  writable : String → Bool
  errMsg : String → String
  entries : String → List String

/-- `fs.ensureDirSync` on a path that is not an existing regular file:
record the directory as existing (a no-op when it already does). -/
def addDir (s : FsState) (p : String) : FsState :=
  if p ∈ s.dirs then s else { s with dirs := p :: s.dirs }

/-- `fs.writeFile`: record the regular file as existing. -/
def addFile (s : FsState) (p : String) : FsState :=
  if p ∈ s.files then s else { s with files := p :: s.files }

/-- Which step of a configuration-store call throws (one per call: the
first throw leaves the `try` block).  Steps that are additionally forced
to throw by the state itself — `ensureDirSync` on a path that exists as a
regular file — throw even under `noFault`. -/
inductive Fault where
  | noFault
  | atEnsureConfigDir
  | atWriteConfigFile
  | atEnsureDownloadDir
  | atReadConfigFile
  deriving DecidableEq, Repr

/-- `getConfig()` (src/index.ts lines 60-82).  Ensures `CONFIG_DIR`; when
no config file exists, writes a default record and ensures its directory;
otherwise reads the file.  Every throw is caught and answered with the
platform-default record, leaving whatever state the completed steps
produced. -/
def getConfig (plat : Platform) (s : FsState) (f : Fault) :
    MarkdownDownloaderConfig × FsState :=
  if f = .atEnsureConfigDir ∨ CONFIG_DIR plat ∈ s.files then
    (defaultConfig plat, s)
  else
    let s1 := addDir s (CONFIG_DIR plat)
    match s.configFile with
    | none =>
      if f = .atWriteConfigFile then (defaultConfig plat, s1)
      else
        let s2 := { s1 with configFile := some (some (defaultConfig plat)) }
        if f = .atEnsureDownloadDir ∨ (defaultConfig plat).downloadDirectory ∈ s2.files then
          (defaultConfig plat, s2)
        else
          (defaultConfig plat, addDir s2 (defaultConfig plat).downloadDirectory)
    | some none => (defaultConfig plat, s1)
    | some (some c) =>
      if f = .atReadConfigFile then (defaultConfig plat, s1) else (c, s1)

/-- Whether some step of `getConfig` on `s` under fault `f` throws (and is
caught), including a malformed config file. -/
def getConfigFails (plat : Platform) (s : FsState) (f : Fault) : Bool :=
  if f = .atEnsureConfigDir ∨ CONFIG_DIR plat ∈ s.files then true
  else
    match s.configFile with
    | none =>
      f = .atWriteConfigFile ∨ f = .atEnsureDownloadDir ∨
        (defaultConfig plat).downloadDirectory ∈ s.files
    | some none => true
    | some (some _) => f = .atReadConfigFile

/-- `saveConfig(config)` (src/index.ts lines 96-104): ensure `CONFIG_DIR`,
write the record, ensure its download directory; any throw is caught and
only logged. -/
def saveConfig (plat : Platform) (c : MarkdownDownloaderConfig) (s : FsState)
    (f : Fault) : FsState :=
  if f = .atEnsureConfigDir ∨ CONFIG_DIR plat ∈ s.files then s
  else
    let s1 := addDir s (CONFIG_DIR plat)
    if f = .atWriteConfigFile then s1
    else
      let s2 := { s1 with configFile := some (some c) }
      if f = .atEnsureDownloadDir ∨ c.downloadDirectory ∈ s2.files then s2
      else addDir s2 c.downloadDirectory

/-! ### Path resolution inside the handlers (src/index.ts 303-309, 424-438) -/

/-- The artifact path the `download_markdown` handler computes:
`path.join(root, filename)`, or `path.join(root, subdirectory, filename)`
when a (truthy, i.e. non-empty) subdirectory is supplied. -/
def resolveDownloadPath (root url : String) (sub : Option String)
    (y m d : Nat) : String :=
  let filename := generateFilename url y m d
  match sub with
  | some sb => if sb = "" then joinPath [root, filename]
               else joinPath [root, sb, filename]
  | none => joinPath [root, filename]

/-- The directory the `list_downloaded_files` handler reads:
`path.join(root, subdirectory)` when a truthy subdirectory is supplied,
else the root itself. -/
def resolveListingDir (root : String) (sub : Option String) : String :=
  match sub with
  | some sb => if sb = "" then root else joinPath [root, sb]
  | none => root

/-- The path the `create_subdirectory` handler creates:
`path.join(root, name)`. -/
def resolveSubdirectoryPath (root name : String) : String :=
  joinPath [root, name]

/-! ### Tool handlers (src/index.ts 287-455) -/

/-- The content part of a tool response: its text and the `isError` flag
(absent means `false`). -/
structure ToolResult where
  text : String
  isError : Bool
  deriving DecidableEq, Repr

/-- Which step of the write phase of `download_markdown` throws. -/
inductive WriteFault where
  | noFault
  | atEnsureSubdir
  | atWriteArtifact
  deriving DecidableEq, Repr

/-- The `download_markdown` handler (src/index.ts lines 287-333) for a
valid `url` argument: load the configuration, fetch
`https://r.jina.ai/<url>` (outcome supplied as `fetch`; `Except.error`
is a failed request), then compute the artifact path, ensure the
subdirectory when one was given, and write the file.  Any throw after the
config load is caught and reported as an `isError` result. -/
def downloadMarkdown (plat : Platform) (url : String) (sub : Option String)
    (fetch : Except String String) (y m d : Nat) (s : FsState)
    (fGet : Fault) (fw : WriteFault) : ToolResult × FsState :=
  let config := (getConfig plat s fGet).1
  let s1 := (getConfig plat s fGet).2
  match fetch with
  | .error msg =>
    ({ text := "Failed to download markdown: " ++ msg, isError := true }, s1)
  | .ok _body =>
    let filename := generateFilename url y m d
    let filepath := resolveDownloadPath config.downloadDirectory url sub y m d
    let hasSub : Bool := match sub with
      | some sb => sb != ""
      | none => false
    if hasSub then
      if fw = .atEnsureSubdir ∨ dirname filepath ∈ s1.files then
        ({ text := "Failed to download markdown: " ++ s1.errMsg filepath,
           isError := true }, s1)
      else
        let s2 := addDir s1 (dirname filepath)
        if fw = .atWriteArtifact then
          ({ text := "Failed to download markdown: " ++ s2.errMsg filepath,
             isError := true }, s2)
        else
          ({ text := "Markdown downloaded and saved as " ++ filename ++
               " in " ++ dirname filepath, isError := false },
           addFile s2 filepath)
    else
      if fw = .atWriteArtifact then
        ({ text := "Failed to download markdown: " ++ s1.errMsg filepath,
           isError := true }, s1)
      else
        ({ text := "Markdown downloaded and saved as " ++ filename ++
             " in " ++ dirname filepath, isError := false },
         addFile s1 filepath)

/-- The `list_downloaded_files` handler (src/index.ts lines 338-366) for a
well-typed request: `fs.readdir` succeeds exactly when the listing
directory exists. -/
def listDownloadedFiles (plat : Platform) (sub : Option String) (s : FsState)
    (fGet : Fault) : ToolResult × FsState :=
  let config := (getConfig plat s fGet).1
  let s1 := (getConfig plat s fGet).2
  let listDir := resolveListingDir config.downloadDirectory sub
  if listDir ∈ s1.dirs then
    ({ text := String.intercalate "\n" (s1.entries listDir), isError := false }, s1)
  else
    ({ text := "Failed to list files: " ++ s1.errMsg listDir, isError := true }, s1)

/-- The `set_download_directory` handler (src/index.ts lines 368-407) for a
valid `directory` argument: validate with `fs.access(directory, W_OK)`;
on success load the configuration, overwrite its `downloadDirectory`, and
save; the only step that can throw inside the `try` is the access check. -/
def setDownloadDirectory (plat : Platform) (directory : String) (s : FsState)
    (fGet fSave : Fault) : ToolResult × FsState :=
  if s.writable directory = false then
    ({ text := "Failed to set download directory: " ++ s.errMsg directory,
       isError := true }, s)
  else
    let s2 := saveConfig plat
      { (getConfig plat s fGet).1 with downloadDirectory := directory }
      (getConfig plat s fGet).2 fSave
    ({ text := "Download directory set to: " ++ directory, isError := false }, s2)

/-- The `get_download_directory` handler (src/index.ts lines 410-420). -/
def getDownloadDirectory (plat : Platform) (s : FsState) (fGet : Fault) :
    ToolResult × FsState :=
  ({ text := (getConfig plat s fGet).1.downloadDirectory, isError := false },
    (getConfig plat s fGet).2)

/-- The `create_subdirectory` handler (src/index.ts lines 423-455) for a
valid `name` argument: `fs.ensureDir(path.join(root, name))`, with any
throw caught and reported as an `isError` result. -/
def createSubdirectory (plat : Platform) (name : String) (s : FsState)
    (fGet : Fault) (ensureFails : Bool) : ToolResult × FsState :=
  let config := (getConfig plat s fGet).1
  let s1 := (getConfig plat s fGet).2
  let newSubdirectoryPath := resolveSubdirectoryPath config.downloadDirectory name
  if ensureFails ∨ newSubdirectoryPath ∈ s1.files then
    ({ text := "Failed to create subdirectory: " ++ s1.errMsg newSubdirectoryPath,
       isError := true }, s1)
  else
    ({ text := "Subdirectory created: " ++ newSubdirectoryPath, isError := false },
     addDir s1 newSubdirectoryPath)

/-! ### Shared concrete fixtures for witnesses and counterexamples -/

/-- A Linux-like platform. -/
def demoPlat : Platform := ⟨false, "/home/user", none⟩

/-- An empty filesystem on which everything is writable. -/
def baseState : FsState :=
  { dirs := [], files := [], configFile := none,
    writable := fun _ => true, errMsg := fun _ => "EACCES", entries := fun _ => [] }

/-- A state whose config file exists but is malformed. -/
def malformedState : FsState := { baseState with configFile := some none }

/-- A filesystem on which nothing is writable. -/
def readOnlyState : FsState := { baseState with writable := fun _ => false }

/-- A filesystem containing one regular file, `relative/target`; everything
is writable. -/
def fileState : FsState := { baseState with files := ["relative/target"] }

/-- A state in which the config file exists and names a download directory
that does not exist on disk. -/
def staleState : FsState :=
  { baseState with
    dirs := [CONFIG_DIR demoPlat],
    configFile := some (some ⟨"/vanished"⟩) }

/-! ### Helper lemmas -/

theorem isPrefixOf_append_self {α : Type} [BEq α] [LawfulBEq α]
    (l t : List α) : l.isPrefixOf (l ++ t) = true := by
  induction l with
  | nil => simp [List.isPrefixOf]
  | cons c cs ih => simp [List.isPrefixOf, ih]

theorem isAsciiAlphanum_eq_isAlphanum (c : Char) :
    isAsciiAlphanum c = c.isAlphanum := by
  simp only [isAsciiAlphanum, Char.isAlphanum, Char.isAlpha, Char.isDigit,
    Char.isUpper, Char.isLower]
  rw [Bool.or_comm (decide ('a' ≤ c) && decide (c ≤ 'z'))]
  rfl

theorem stripScheme_http (r : List Char) :
    stripSchemeCore (['h', 't', 't', 'p', ':', '/', '/'] ++ r) = r := by
  have h1 : "http://".data.isPrefixOf (['h', 't', 't', 'p', ':', '/', '/'] ++ r) = true :=
    isPrefixOf_append_self "http://".data r
  simp only [stripSchemeCore, h1, if_true]
  rfl

theorem stripScheme_https (r : List Char) :
    stripSchemeCore (['h', 't', 't', 'p', 's', ':', '/', '/'] ++ r) = r := by
  have h1 : "http://".data.isPrefixOf (['h', 't', 't', 'p', 's', ':', '/', '/'] ++ r) = false := by
    have e1 : "http://".data = ['h', 't', 't', 'p', ':', '/', '/'] := rfl
    rw [e1]
    simp [List.isPrefixOf]
  have h2 : "https://".data.isPrefixOf (['h', 't', 't', 'p', 's', ':', '/', '/'] ++ r) = true :=
    isPrefixOf_append_self "https://".data r
  simp only [stripSchemeCore, h1, h2, Bool.false_eq_true, if_false, if_true]
  rfl

theorem stripScheme_of_no_scheme (r : String) (h : hasScheme r = false) :
    stripSchemeCore r.data = r.data := by
  simp only [hasScheme, Bool.or_eq_false_iff] at h
  simp [stripSchemeCore, h.1, h.2]

/-! ### C4: the sanitiser -/

/-- C4: `sanitizeFilename` strips one leading `http://` or `https://`
scheme, replaces every character outside the ASCII alphanumeric set with a
dash, and lowercases — exactly the specified transformation — and it is
scheme-insensitive: prefixing `http://` or `https://` to a scheme-free URL,
or swapping the two schemes, does not change the output. -/
theorem sanitize_spec_and_scheme_invariance :
    (∀ url : String, sanitizeFilename url = specSanitize url) ∧
    (∀ r : String,
      sanitizeFilename ("http://" ++ r) = sanitizeFilename ("https://" ++ r)) ∧
    (∀ r : String, hasScheme r = false →
      sanitizeFilename ("http://" ++ r) = sanitizeFilename r ∧
      sanitizeFilename ("https://" ++ r) = sanitizeFilename r) := by
  refine ⟨?_, ?_, ?_⟩
  · intro url
    simp only [sanitizeFilename, sanitizeCore, specSanitize, stripSchemeCore,
      List.map_map]
    congr 1
    apply List.map_congr_left
    intro c _
    simp [Function.comp, dashifyChar, isAsciiAlphanum_eq_isAlphanum]
  · intro r
    simp only [sanitizeFilename, sanitizeCore, String.data_append,
      stripScheme_http, stripScheme_https]
  · intro r h
    constructor <;>
      simp only [sanitizeFilename, sanitizeCore, String.data_append,
        stripScheme_http, stripScheme_https, stripScheme_of_no_scheme r h]

/-- Witness for C4 at `r = "example.com/a"`. -/
theorem sanitize_spec_and_scheme_invariance_witness :
    hasScheme "example.com/a" = false ∧
    sanitizeFilename ("http://" ++ "example.com/a") =
      sanitizeFilename "example.com/a" :=
  ⟨by decide,
    (sanitize_spec_and_scheme_invariance.2.2 "example.com/a" (by decide)).1⟩

/-! ### C5: filename generation -/

theorem digitChar_inj_lt_ten :
    ∀ a < 10, ∀ b < 10, digitChar a = digitChar b → a = b := by decide

/-- C5: `generateFilename url` is `sanitizeFilename url`, a dash, the UTC
calendar date as `YYYYMMDD`, and `.md`; it is a pure function of the URL
and the calendar date (same URL and date give identical strings), distinct
calendar dates give distinct strings, and downloading
`https://example.com/a` on 2026-01-15 resolves, with no subdirectory, to
`<root>/example-com-a-20260115.md`. -/
theorem generateFilename_spec :
    (∀ (url : String) (y m d : Nat),
      generateFilename url y m d =
        sanitizeFilename url ++ "-" ++ formatDatestamp y m d ++ ".md") ∧
    (∀ (url : String) (y m d : Nat),
      generateFilename url y m d = generateFilename url y m d) ∧
    (∀ (url : String) (y m d y' m' d' : Nat),
      y < 10000 → m < 100 → d < 100 → y' < 10000 → m' < 100 → d' < 100 →
      (y, m, d) ≠ (y', m', d') →
      generateFilename url y m d ≠ generateFilename url y' m' d') ∧
    resolveDownloadPath "/home/user/.markdown-downloads"
        "https://example.com/a" none 2026 1 15 =
      "/home/user/.markdown-downloads/example-com-a-20260115.md" := by
  refine ⟨fun _ _ _ _ => rfl, fun _ _ _ _ => rfl, ?_, by decide⟩
  intro url y m d y' m' d' hy hm hd hy' hm' hd' hne heq
  apply hne
  have h1 : (generateFilename url y m d).data = (generateFilename url y' m' d').data := by
    rw [heq]
  simp only [generateFilename, String.data_append, sanitizeFilename,
    formatDatestamp, List.append_assoc] at h1
  have h2 : (datestampChars y m d ++ ".md".data : List Char) =
      datestampChars y' m' d' ++ ".md".data := by
    have := List.append_cancel_left h1
    exact List.append_cancel_left this
  simp only [datestampChars, List.cons_append, List.nil_append,
    List.cons.injEq, and_true] at h2
  obtain ⟨e1, e2, e3, e4, e5, e6, e7, e8⟩ := h2
  have d1 := digitChar_inj_lt_ten _ (Nat.mod_lt _ (by norm_num)) _
    (Nat.mod_lt _ (by norm_num)) e1
  have d2 := digitChar_inj_lt_ten _ (Nat.mod_lt _ (by norm_num)) _
    (Nat.mod_lt _ (by norm_num)) e2
  have d3 := digitChar_inj_lt_ten _ (Nat.mod_lt _ (by norm_num)) _
    (Nat.mod_lt _ (by norm_num)) e3
  have d4 := digitChar_inj_lt_ten _ (Nat.mod_lt _ (by norm_num)) _
    (Nat.mod_lt _ (by norm_num)) e4
  have d5 := digitChar_inj_lt_ten _ (Nat.mod_lt _ (by norm_num)) _
    (Nat.mod_lt _ (by norm_num)) e5
  have d6 := digitChar_inj_lt_ten _ (Nat.mod_lt _ (by norm_num)) _
    (Nat.mod_lt _ (by norm_num)) e6
  have d7 := digitChar_inj_lt_ten _ (Nat.mod_lt _ (by norm_num)) _
    (Nat.mod_lt _ (by norm_num)) e7
  have d8 := digitChar_inj_lt_ten _ (Nat.mod_lt _ (by norm_num)) _
    (Nat.mod_lt _ (by norm_num)) e8
  have : y = y' ∧ m = m' ∧ d = d' := by omega
  simp [this.1, this.2.1, this.2.2]

/-- Witness for C5: the date-injectivity part at the concrete dates
2026-01-15 and 2026-01-16. -/
theorem generateFilename_spec_witness :
    (2026 < 10000 ∧ 1 < 100 ∧ 15 < 100 ∧ 16 < 100 ∧
      ((2026, 1, 15) : Nat × Nat × Nat) ≠ (2026, 1, 16)) ∧
    generateFilename "https://example.com/a" 2026 1 15 ≠
      generateFilename "https://example.com/a" 2026 1 16 :=
  ⟨by decide,
    generateFilename_spec.2.2.1 "https://example.com/a" 2026 1 15 2026 1 16
      (by decide) (by decide) (by decide) (by decide) (by decide) (by decide)
      (by decide)⟩

/-! ### Helper lemmas about the filesystem state -/

theorem addDir_files (s : FsState) (p : String) : (addDir s p).files = s.files := by
  unfold addDir; split <;> rfl

theorem addDir_configFile (s : FsState) (p : String) :
    (addDir s p).configFile = s.configFile := by
  unfold addDir; split <;> rfl

theorem addDir_of_mem {s : FsState} {p : String} (h : p ∈ s.dirs) :
    addDir s p = s := by
  simp [addDir, h]

theorem mem_addDir_self (s : FsState) (p : String) : p ∈ (addDir s p).dirs := by
  unfold addDir; split <;> simp_all

theorem mem_addDir_of_mem {s : FsState} {q : String} (p : String)
    (h : q ∈ s.dirs) : q ∈ (addDir s p).dirs := by
  unfold addDir; split <;> simp_all

theorem getConfig_files (plat : Platform) (s : FsState) (f : Fault) :
    (getConfig plat s f).2.files = s.files := by
  unfold getConfig
  by_cases h0 : f = Fault.atEnsureConfigDir ∨ CONFIG_DIR plat ∈ s.files
  · simp [h0]
  · obtain ⟨hf, hm⟩ := not_or.mp h0
    cases hc : s.configFile with
    | none =>
      by_cases h1 : f = Fault.atWriteConfigFile
      · simp [hf, hm, hc, h1, addDir_files]
      · by_cases h2 : f = Fault.atEnsureDownloadDir ∨
            (defaultConfig plat).downloadDirectory ∈ s.files
        · simp [hf, hm, hc, h1, h2, addDir_files]
        · simp [hf, hm, hc, h1, h2, addDir_files]
    | some oc =>
      cases oc with
      | none => simp [hf, hm, hc, addDir_files]
      | some c =>
        by_cases h1 : f = Fault.atReadConfigFile
        · simp [hf, hm, hc, h1, addDir_files]
        · simp [hf, hm, hc, h1, addDir_files]

theorem getConfig_configFile_ne_none (plat : Platform) (s : FsState) (f : Fault)
    (h : s.configFile ≠ none) : (getConfig plat s f).2.configFile ≠ none := by
  unfold getConfig
  by_cases h0 : f = Fault.atEnsureConfigDir ∨ CONFIG_DIR plat ∈ s.files
  · simp [h0, h]
  · obtain ⟨hf, hm⟩ := not_or.mp h0
    cases hc : s.configFile with
    | none => exact absurd hc h
    | some oc =>
      cases oc with
      | none => simp [hf, hm, hc, addDir_configFile]
      | some c =>
        by_cases h1 : f = Fault.atReadConfigFile
        · simp [hf, hm, hc, h1, addDir_configFile]
        · simp [hf, hm, hc, h1, addDir_configFile]

theorem saveConfig_configFile_ne_none (plat : Platform)
    (c : MarkdownDownloaderConfig) (s : FsState) (f : Fault)
    (h : s.configFile ≠ none) : (saveConfig plat c s f).configFile ≠ none := by
  unfold saveConfig
  by_cases h0 : f = Fault.atEnsureConfigDir ∨ CONFIG_DIR plat ∈ s.files
  · simp [h0, h]
  · obtain ⟨hf, hm⟩ := not_or.mp h0
    by_cases h1 : f = Fault.atWriteConfigFile
    · simp [hf, hm, h1, addDir_configFile, h]
    · by_cases h2 : f = Fault.atEnsureDownloadDir ∨ c.downloadDirectory ∈ s.files
      · simp [hf, hm, h1, h2, addDir_files, addDir_configFile]
      · simp [hf, hm, h1, h2, addDir_files, addDir_configFile]

/-! ### C3: load never raises and falls back to the platform default -/

/-- C3: `getConfig` always returns a record — either the one stored in the
config file or the platform default — and on every failing run (an I/O
fault at any step, the config path shadowed by a regular file, or a
malformed config file) the returned record is exactly the
platform-default fallback. -/
theorem getConfig_fail_soft :
    (∀ (plat : Platform) (s : FsState) (f : Fault),
      getConfigFails plat s f = true →
      (getConfig plat s f).1 = defaultConfig plat) ∧
    (∀ (plat : Platform) (s : FsState) (f : Fault),
      (getConfig plat s f).1 = defaultConfig plat ∨
        s.configFile = some (some ((getConfig plat s f).1))) := by
  constructor
  · intro plat s f h
    unfold getConfig getConfigFails at *
    by_cases h0 : f = Fault.atEnsureConfigDir ∨ CONFIG_DIR plat ∈ s.files
    · simp [h0]
    · obtain ⟨hf, hm⟩ := not_or.mp h0
      cases hc : s.configFile with
      | none =>
        by_cases h1 : f = Fault.atWriteConfigFile
        · simp [hf, hm, hc, h1]
        · by_cases h2 : f = Fault.atEnsureDownloadDir ∨
              (defaultConfig plat).downloadDirectory ∈ s.files
          · simp [hf, hm, hc, h1, h2, addDir_files]
          · simp [hf, hm, hc, h1, h2, addDir_files]
      | some oc =>
        cases oc with
        | none => simp [hf, hm, hc]
        | some c =>
          simp only [hf, hm, hc] at h
          simp only [if_neg h0, hc]
          simp at h
          simp [h]
  · intro plat s f
    unfold getConfig
    by_cases h0 : f = Fault.atEnsureConfigDir ∨ CONFIG_DIR plat ∈ s.files
    · simp [h0]
    · obtain ⟨hf, hm⟩ := not_or.mp h0
      cases hc : s.configFile with
      | none =>
        by_cases h1 : f = Fault.atWriteConfigFile
        · simp [hf, hm, hc, h1]
        · by_cases h2 : f = Fault.atEnsureDownloadDir ∨
              (defaultConfig plat).downloadDirectory ∈ s.files
          · simp [hf, hm, hc, h1, h2, addDir_files]
          · simp [hf, hm, hc, h1, h2, addDir_files]
      | some oc =>
        cases oc with
        | none => simp [hf, hm, hc]
        | some c =>
          by_cases h1 : f = Fault.atReadConfigFile
          · simp [hf, hm, hc, h1]
          · simp [hf, hm, hc, h1]

/-- Witness for C3: a malformed config file is a failing run, answered with
the platform default. -/
theorem getConfig_fail_soft_witness :
    getConfigFails demoPlat malformedState Fault.noFault = true ∧
    (getConfig demoPlat malformedState Fault.noFault).1 = defaultConfig demoPlat :=
  ⟨by decide, getConfig_fail_soft.1 demoPlat malformedState Fault.noFault (by decide)⟩

/-! ### C6: directory validation failure is soft and mutates nothing -/

/-- C6: when the writability check on the requested directory fails,
`set_download_directory` answers with an `isError` result carrying the
underlying reason and leaves the filesystem — in particular the persisted
configuration record — completely unchanged. -/
theorem setDownloadDirectory_validation_failure
    (plat : Platform) (d : String) (s : FsState) (fGet fSave : Fault)
    (h : s.writable d = false) :
    setDownloadDirectory plat d s fGet fSave =
      ({ text := "Failed to set download directory: " ++ s.errMsg d,
         isError := true }, s) := by
  simp [setDownloadDirectory, h]

/-- Witness for C6 at a concrete non-writable path. -/
theorem setDownloadDirectory_validation_failure_witness :
    readOnlyState.writable "/no/such/dir" = false ∧
    (setDownloadDirectory demoPlat "/no/such/dir" readOnlyState
        Fault.noFault Fault.noFault).1.isError = true ∧
    (setDownloadDirectory demoPlat "/no/such/dir" readOnlyState
        Fault.noFault Fault.noFault).2 = readOnlyState := by
  have h := setDownloadDirectory_validation_failure demoPlat "/no/such/dir"
    readOnlyState Fault.noFault Fault.noFault rfl
  exact ⟨rfl, by rw [h], by rw [h]⟩

/-! ### C7: save followed by load round-trips and creates the directory -/

/-- C7: on a run without I/O faults (and no regular file shadowing the
config directory or the target), `saveConfig {downloadDirectory := D}`
followed by `getConfig` returns a record with `downloadDirectory = D`,
and `D` exists as a directory immediately after the save. -/
theorem save_then_load_roundtrip (plat : Platform) (D : String) (s : FsState)
    (h1 : CONFIG_DIR plat ∉ s.files) (h2 : D ∉ s.files) :
    (getConfig plat (saveConfig plat ⟨D⟩ s Fault.noFault) Fault.noFault).1 = ⟨D⟩ ∧
    D ∈ (saveConfig plat ⟨D⟩ s Fault.noFault).dirs := by
  have hs : saveConfig plat ⟨D⟩ s Fault.noFault =
      addDir { addDir s (CONFIG_DIR plat) with
        configFile := some (some ⟨D⟩) } D := by
    unfold saveConfig
    simp [h1, addDir_files, h2]
  constructor
  · rw [hs]
    unfold getConfig
    simp [addDir_files, h1, addDir_configFile]
  · rw [hs]
    exact mem_addDir_self _ _

/-- Witness for C7 at a concrete directory string on the empty state. -/
theorem save_then_load_roundtrip_witness :
    (CONFIG_DIR demoPlat ∉ baseState.files ∧ "/data/dl" ∉ baseState.files) ∧
    ((getConfig demoPlat (saveConfig demoPlat ⟨"/data/dl"⟩ baseState Fault.noFault)
        Fault.noFault).1 = ⟨"/data/dl"⟩ ∧
      "/data/dl" ∈ (saveConfig demoPlat ⟨"/data/dl"⟩ baseState Fault.noFault).dirs) :=
  ⟨⟨by decide, by decide⟩,
    save_then_load_roundtrip demoPlat "/data/dl" baseState (by decide) (by decide)⟩

/-! ### C8: first load bootstraps, second load is a no-op -/

/-- C8: on a fresh environment (no config file; no faults) `getConfig`
writes the default record to the config file, creates the platform-default
download directory, and returns a record whose directory exists; a second
`getConfig` returns the very same record and leaves the state — in
particular the config file — untouched; and once the config file exists,
no `getConfig` or `saveConfig` run ever takes it back to the absent
state. -/
theorem fresh_load_bootstrap (plat : Platform) (s : FsState)
    (h0 : s.configFile = none)
    (h1 : CONFIG_DIR plat ∉ s.files)
    (h2 : (defaultConfig plat).downloadDirectory ∉ s.files) :
    (getConfig plat s Fault.noFault).1 = defaultConfig plat ∧
    (getConfig plat s Fault.noFault).2.configFile =
      some (some (defaultConfig plat)) ∧
    (getConfig plat s Fault.noFault).1.downloadDirectory ∈
      (getConfig plat s Fault.noFault).2.dirs ∧
    getConfig plat (getConfig plat s Fault.noFault).2 Fault.noFault =
      ((getConfig plat s Fault.noFault).1, (getConfig plat s Fault.noFault).2) ∧
    (∀ (s' : FsState) (f' : Fault), s'.configFile ≠ none →
      (getConfig plat s' f').2.configFile ≠ none ∧
      (saveConfig plat (defaultConfig plat) s' f').configFile ≠ none) := by
  have hg : getConfig plat s Fault.noFault =
      (defaultConfig plat,
        addDir { addDir s (CONFIG_DIR plat) with
          configFile := some (some (defaultConfig plat)) }
          (defaultConfig plat).downloadDirectory) := by
    unfold getConfig
    simp [h0, h1, h2, addDir_files]
  refine ⟨by rw [hg], by rw [hg]; simp [addDir_configFile], ?_, ?_, ?_⟩
  · rw [hg]
    exact mem_addDir_self _ _
  · rw [hg]
    unfold getConfig
    have hf2 : (addDir { addDir s (CONFIG_DIR plat) with
        configFile := some (some (defaultConfig plat)) }
        (defaultConfig plat).downloadDirectory).files = s.files := by
      simp [addDir_files]
    have hcf : (addDir { addDir s (CONFIG_DIR plat) with
        configFile := some (some (defaultConfig plat)) }
        (defaultConfig plat).downloadDirectory).configFile =
          some (some (defaultConfig plat)) := by
      simp [addDir_configFile]
    have hmem : CONFIG_DIR plat ∈ (addDir { addDir s (CONFIG_DIR plat) with
        configFile := some (some (defaultConfig plat)) }
        (defaultConfig plat).downloadDirectory).dirs := by
      apply mem_addDir_of_mem
      show CONFIG_DIR plat ∈ (addDir s (CONFIG_DIR plat)).dirs
      exact mem_addDir_self _ _
    rw [hf2, hcf]
    simp [h1, addDir_of_mem hmem]
  · intro s' f' hne
    exact ⟨getConfig_configFile_ne_none plat s' f' hne,
      saveConfig_configFile_ne_none plat _ s' f' hne⟩

/-- Witness for C8 on the empty filesystem. -/
theorem fresh_load_bootstrap_witness :
    (baseState.configFile = none ∧
      CONFIG_DIR demoPlat ∉ baseState.files ∧
      (defaultConfig demoPlat).downloadDirectory ∉ baseState.files) ∧
    ((getConfig demoPlat baseState Fault.noFault).1 = defaultConfig demoPlat ∧
      getConfig demoPlat (getConfig demoPlat baseState Fault.noFault).2
          Fault.noFault =
        ((getConfig demoPlat baseState Fault.noFault).1,
          (getConfig demoPlat baseState Fault.noFault).2)) :=
  ⟨⟨rfl, by decide, by decide⟩,
    (fresh_load_bootstrap demoPlat baseState rfl (by decide) (by decide)).1,
    (fresh_load_bootstrap demoPlat baseState rfl (by decide) (by decide)).2.2.2.1⟩

/-! ### C10: validation is a bare writability check -/

/-- C10: `set_download_directory` validates only with
`fs.access(directory, W_OK)`: whenever that check passes — no matter
whether the path is an existing directory, a regular file, or relative —
the handler confirms the new directory and persists it verbatim in the
configuration record (the save's write step needs only the config
directory not to be shadowed by a regular file). -/
theorem setDownloadDirectory_accepts_any_writable
    (plat : Platform) (d : String) (s : FsState) (fGet : Fault)
    (hw : s.writable d = true) (h1 : CONFIG_DIR plat ∉ s.files) :
    (setDownloadDirectory plat d s fGet Fault.noFault).1 =
      { text := "Download directory set to: " ++ d, isError := false } ∧
    (setDownloadDirectory plat d s fGet Fault.noFault).2.configFile =
      some (some ⟨d⟩) := by
  have h1' : CONFIG_DIR plat ∉ (getConfig plat s fGet).2.files := by
    rw [getConfig_files]; exact h1
  unfold setDownloadDirectory
  simp only [hw]
  constructor
  · simp
  · have hrec : { (getConfig plat s fGet).1 with downloadDirectory := d } =
        (⟨d⟩ : MarkdownDownloaderConfig) := rfl
    unfold saveConfig
    rw [hrec]
    by_cases h2 : d ∈ (getConfig plat s fGet).2.files
    · simp [h1', h2, addDir_files, addDir_configFile]
    · simp [h1', h2, addDir_files, addDir_configFile]

/-- Witness for C10: a writable *relative path that is a regular file* is
accepted, confirmed and persisted verbatim. -/
theorem setDownloadDirectory_accepts_any_writable_witness :
    (fileState.writable "relative/target" = true ∧
      CONFIG_DIR demoPlat ∉ fileState.files ∧
      "relative/target" ∈ fileState.files) ∧
    ((setDownloadDirectory demoPlat "relative/target" fileState
        Fault.noFault Fault.noFault).1 =
      { text := "Download directory set to: relative/target", isError := false } ∧
    (setDownloadDirectory demoPlat "relative/target" fileState
        Fault.noFault Fault.noFault).2.configFile =
      some (some ⟨"relative/target"⟩)) :=
  ⟨⟨rfl, by decide, by decide⟩,
    setDownloadDirectory_accepts_any_writable demoPlat "relative/target"
      fileState Fault.noFault rfl (by decide)⟩

/-! ### C9: a failed fetch writes nothing -/

theorem mem_addDir_elim {s : FsState} {p q : String}
    (h : q ∈ (addDir s p).dirs) : q = p ∨ q ∈ s.dirs := by
  unfold addDir at h
  split at h
  · exact Or.inr h
  · simpa using h

theorem getConfig_dirs_bounded (plat : Platform) (s : FsState) (f : Fault) :
    ((getConfig plat s f).2.dirs.all (fun p => s.dirs.contains p ||
      (p == CONFIG_DIR plat) ||
      (p == (defaultConfig plat).downloadDirectory))) = true := by
  rw [List.all_eq_true]
  intro p hp
  suffices h : p ∈ s.dirs ∨ p = CONFIG_DIR plat ∨
      p = (defaultConfig plat).downloadDirectory by
    rcases h with h | h | h <;> simp [h]
  by_cases h0 : f = Fault.atEnsureConfigDir ∨ CONFIG_DIR plat ∈ s.files
  · have he : (getConfig plat s f).2.dirs = s.dirs := by
      unfold getConfig; simp [h0]
    rw [he] at hp
    exact Or.inl hp
  · obtain ⟨hf, hm⟩ := not_or.mp h0
    cases hc : s.configFile with
    | none =>
      by_cases h1 : f = Fault.atWriteConfigFile
      · have he : (getConfig plat s f).2.dirs = (addDir s (CONFIG_DIR plat)).dirs := by
          unfold getConfig; simp [hf, hm, hc, h1]
        rw [he] at hp
        rcases mem_addDir_elim hp with h | h
        · exact Or.inr (Or.inl h)
        · exact Or.inl h
      · by_cases h2 : f = Fault.atEnsureDownloadDir ∨
            (defaultConfig plat).downloadDirectory ∈ s.files
        · have he : (getConfig plat s f).2.dirs =
              (addDir s (CONFIG_DIR plat)).dirs := by
            unfold getConfig; simp [hf, hm, hc, h1, h2, addDir_files]
          rw [he] at hp
          rcases mem_addDir_elim hp with h | h
          · exact Or.inr (Or.inl h)
          · exact Or.inl h
        · have he : (getConfig plat s f).2.dirs =
              (addDir { addDir s (CONFIG_DIR plat) with
                configFile := some (some (defaultConfig plat)) }
                (defaultConfig plat).downloadDirectory).dirs := by
            unfold getConfig; simp [hf, hm, hc, h1, h2, addDir_files]
          rw [he] at hp
          rcases mem_addDir_elim hp with h | h
          · exact Or.inr (Or.inr h)
          · have h' : p ∈ (addDir s (CONFIG_DIR plat)).dirs := h
            rcases mem_addDir_elim h' with h'' | h''
            · exact Or.inr (Or.inl h'')
            · exact Or.inl h''
    | some oc =>
      have he : (getConfig plat s f).2.dirs = (addDir s (CONFIG_DIR plat)).dirs := by
        cases oc with
        | none => unfold getConfig; simp [hf, hm, hc]
        | some c =>
          by_cases h1 : f = Fault.atReadConfigFile
          · unfold getConfig; simp [hf, hm, hc, h1]
          · unfold getConfig; simp [hf, hm, hc, h1]
      rw [he] at hp
      rcases mem_addDir_elim hp with h | h
      · exact Or.inr (Or.inl h)
      · exact Or.inl h

/-- C9: in `download_markdown` the fetch precedes every write the handler
itself performs: when the fetch fails the result is a soft failure, the
state is exactly the one the configuration load produced — no artifact
file is written (`files` is unchanged) and the only directories that can
have appeared are the config directory and the platform-default root
created by the configuration bootstrap, never the requested
subdirectory. -/
theorem downloadMarkdown_fetch_failure (plat : Platform) (url : String)
    (sub : Option String) (msg : String) (y m d : Nat) (s : FsState)
    (fGet : Fault) (fw : WriteFault) :
    (downloadMarkdown plat url sub (Except.error msg) y m d s fGet fw).1 =
      { text := "Failed to download markdown: " ++ msg, isError := true } ∧
    (downloadMarkdown plat url sub (Except.error msg) y m d s fGet fw).2 =
      (getConfig plat s fGet).2 ∧
    (downloadMarkdown plat url sub (Except.error msg) y m d s fGet fw).2.files =
      s.files ∧
    ((downloadMarkdown plat url sub (Except.error msg) y m d s fGet fw).2.dirs.all
      (fun p => s.dirs.contains p || (p == CONFIG_DIR plat) ||
        (p == (defaultConfig plat).downloadDirectory))) = true :=
  ⟨rfl, rfl, getConfig_files plat s fGet, getConfig_dirs_bounded plat s fGet⟩

/-! ### C1: does the returned record's directory always exist? -/

/-- Counterexample to C1: with an existing config file pointing at
`/vanished` (a directory absent from disk), `getConfig` returns that
record yet its directory still does not exist afterwards — the read path
performs no existence check or creation. -/
theorem load_existing_no_dir_guarantee_counterexample :
    (getConfig demoPlat staleState Fault.noFault).1.downloadDirectory =
      "/vanished" ∧
    "/vanished" ∉ (getConfig demoPlat staleState Fault.noFault).2.dirs := by
  constructor
  · rfl
  · decide

/-- C1 amended: the store guarantees the returned record's directory exists
only on the bootstrap branch of `load()` (no prior config file) and on
`save()`; `load()` answering from an existing config file, and the
fallback record returned after a caught failure, come with no such
guarantee.  The store never removes a directory. -/
theorem dir_guarantee_amended :
    (∀ (plat : Platform) (s : FsState),
      s.configFile = none → CONFIG_DIR plat ∉ s.files →
      (defaultConfig plat).downloadDirectory ∉ s.files →
      (getConfig plat s Fault.noFault).1.downloadDirectory ∈
        (getConfig plat s Fault.noFault).2.dirs) ∧
    (∀ (plat : Platform) (c : MarkdownDownloaderConfig) (s : FsState),
      CONFIG_DIR plat ∉ s.files → c.downloadDirectory ∉ s.files →
      c.downloadDirectory ∈ (saveConfig plat c s Fault.noFault).dirs) ∧
    (∀ (plat : Platform) (s : FsState) (f : Fault) (p : String),
      p ∈ s.dirs → p ∈ (getConfig plat s f).2.dirs) ∧
    (∀ (plat : Platform) (c : MarkdownDownloaderConfig) (s : FsState)
        (f : Fault) (p : String),
      p ∈ s.dirs → p ∈ (saveConfig plat c s f).dirs) := by
  refine ⟨?_, ?_, ?_, ?_⟩
  · intro plat s h0 h1 h2
    exact (fresh_load_bootstrap plat s h0 h1 h2).2.2.1
  · intro plat c s h1 h2
    unfold saveConfig
    simp only [addDir_files]
    simp [h1, h2]
    exact mem_addDir_self _ _
  · intro plat s f p hp
    unfold getConfig
    by_cases h0 : f = Fault.atEnsureConfigDir ∨ CONFIG_DIR plat ∈ s.files
    · simp [h0, hp]
    · obtain ⟨hf, hm⟩ := not_or.mp h0
      cases hc : s.configFile with
      | none =>
        by_cases h1 : f = Fault.atWriteConfigFile
        · simp only [if_neg h0, hc, if_pos h1]
          exact mem_addDir_of_mem _ hp
        · by_cases h2 : f = Fault.atEnsureDownloadDir ∨
              (defaultConfig plat).downloadDirectory ∈ s.files
          · simp only [if_neg h0, hc, if_neg h1, addDir_files, if_pos h2]
            exact mem_addDir_of_mem _ hp
          · simp only [if_neg h0, hc, if_neg h1, addDir_files, if_neg h2]
            apply mem_addDir_of_mem
            exact mem_addDir_of_mem _ hp
      | some oc =>
        cases oc with
        | none =>
          simp only [if_neg h0, hc]
          exact mem_addDir_of_mem _ hp
        | some c =>
          by_cases h1 : f = Fault.atReadConfigFile
          · simp only [if_neg h0, hc, if_pos h1]
            exact mem_addDir_of_mem _ hp
          · simp only [if_neg h0, hc, if_neg h1]
            exact mem_addDir_of_mem _ hp
  · intro plat c s f p hp
    unfold saveConfig
    by_cases h0 : f = Fault.atEnsureConfigDir ∨ CONFIG_DIR plat ∈ s.files
    · simp [h0, hp]
    · by_cases h1 : f = Fault.atWriteConfigFile
      · simp only [if_neg h0, if_pos h1]
        exact mem_addDir_of_mem _ hp
      · by_cases h2 : f = Fault.atEnsureDownloadDir ∨
            c.downloadDirectory ∈ s.files
        · simp only [if_neg h0, if_neg h1, addDir_files, if_pos h2]
          exact mem_addDir_of_mem _ hp
        · simp only [if_neg h0, if_neg h1, addDir_files, if_neg h2]
          apply mem_addDir_of_mem
          exact mem_addDir_of_mem _ hp

/-- Witness for the amended C1 on the empty filesystem. -/
theorem dir_guarantee_amended_witness :
    (baseState.configFile = none ∧
      CONFIG_DIR demoPlat ∉ baseState.files ∧
      (defaultConfig demoPlat).downloadDirectory ∉ baseState.files) ∧
    (getConfig demoPlat baseState Fault.noFault).1.downloadDirectory ∈
      (getConfig demoPlat baseState Fault.noFault).2.dirs :=
  ⟨⟨rfl, by decide, by decide⟩,
    dir_guarantee_amended.1 demoPlat baseState rfl (by decide) (by decide)⟩

/-! ### C2: path containment -/

theorem splitSlash_ne_nil (l : List Char) : splitSlash l ≠ [] := by
  cases l with
  | nil => simp [splitSlash]
  | cons c rest =>
    unfold splitSlash
    split
    · simp
    · split <;> simp

theorem slash_not_mem_splitSlash (l : List Char) :
    ∀ x ∈ splitSlash l, '/' ∉ x := by
  induction l with
  | nil => intro x hx; simp [splitSlash] at hx; simp [hx]
  | cons c rest ih =>
    intro x hx
    unfold splitSlash at hx
    by_cases hc : c = '/'
    · rw [if_pos hc] at hx
      rcases List.mem_cons.mp hx with h | h
      · simp [h]
      · exact ih x h
    · rw [if_neg hc] at hx
      cases hsp : splitSlash rest with
      | nil => exact absurd hsp (splitSlash_ne_nil rest)
      | cons p ps =>
        rw [hsp] at hx
        rcases List.mem_cons.mp hx with h | h
        · subst h
          intro hmem
          rcases List.mem_cons.mp hmem with h' | h'
          · exact hc h'.symm
          · exact ih p (hsp ▸ List.mem_cons_self p ps) h'
        · exact ih x (hsp ▸ List.mem_cons_of_mem p h)

theorem splitSlash_of_slashfree {l : List Char} (h : '/' ∉ l) :
    splitSlash l = [l] := by
  induction l with
  | nil => rfl
  | cons c rest ih =>
    have hc : c ≠ '/' := fun he => h (he ▸ List.mem_cons_self c rest)
    have hr : '/' ∉ rest := fun hm => h (List.mem_cons_of_mem c hm)
    unfold splitSlash
    rw [if_neg hc, ih hr]

theorem splitSlash_append_slash {x : List Char} (t : List Char) (h : '/' ∉ x) :
    splitSlash (x ++ '/' :: t) = x :: splitSlash t := by
  induction x with
  | nil => simp [splitSlash]
  | cons c rest ih =>
    have hc : c ≠ '/' := fun he => h (he ▸ List.mem_cons_self c rest)
    have hr : '/' ∉ rest := fun hm => h (List.mem_cons_of_mem c hm)
    rw [List.cons_append]
    simp only [splitSlash]
    rw [if_neg hc, ih hr]

theorem splitSlash_joinWithSlash {parts : List (List Char)}
    (hne : parts ≠ []) (hsl : ∀ p ∈ parts, '/' ∉ p) :
    splitSlash (joinWithSlash parts) = parts := by
  induction parts with
  | nil => exact absurd rfl hne
  | cons x xs ih =>
    cases xs with
    | nil =>
      show splitSlash (joinWithSlash [x]) = [x]
      unfold joinWithSlash
      exact splitSlash_of_slashfree (hsl x (List.mem_cons_self x []))
    | cons y ys =>
      show splitSlash (x ++ '/' :: joinWithSlash (y :: ys)) = x :: y :: ys
      rw [splitSlash_append_slash _ (hsl x (List.mem_cons_self x (y :: ys)))]
      rw [ih (by simp) (fun p hp => hsl p (List.mem_cons_of_mem x hp))]

theorem foldl_normStep_no_upward {abs : Bool} {l : List (List Char)}
    (h : ∀ p ∈ l, p ≠ ['.', '.']) (acc : List (List Char)) :
    l.foldl (normStep abs) acc = (l.filter keepPart).reverse ++ acc := by
  induction l generalizing acc with
  | nil => simp
  | cons p l' ih =>
    have hp : p ≠ ['.', '.'] := h p (List.mem_cons_self p l')
    have h' : ∀ q ∈ l', q ≠ ['.', '.'] := fun q hq => h q (List.mem_cons_of_mem p hq)
    rw [List.foldl_cons]
    by_cases hskip : p = [] ∨ p = ['.']
    · have hk : keepPart p = false := by
        rcases hskip with h1 | h1 <;> simp [keepPart, h1]
      have hstep : normStep abs acc p = acc := by
        unfold normStep
        rw [if_pos hskip]
      rw [hstep, ih h', List.filter_cons_of_neg (by simp [hk])]
    · have hk : keepPart p = true := by
        rw [not_or] at hskip
        simp [keepPart, hskip.1, hskip.2]
      have hstep : normStep abs acc p = p :: acc := by
        unfold normStep
        rw [if_neg hskip, if_neg (by exact hp)]
      rw [hstep, ih h' (p :: acc), List.filter_cons_of_pos hk]
      simp

theorem normalizeParts_no_upward {abs : Bool} {l : List (List Char)}
    (h : ∀ p ∈ l, p ≠ ['.', '.']) :
    normalizeParts abs l = l.filter keepPart := by
  unfold normalizeParts
  rw [foldl_normStep_no_upward h []]
  simp

theorem pathParts_render {abs : Bool} {parts : List (List Char)}
    (hsl : ∀ p ∈ parts, '/' ∉ p) :
    pathParts ⟨renderPath abs parts⟩ = parts.filter keepPart := by
  cases parts with
  | nil => cases abs <;> rfl
  | cons x xs =>
    have hne : (x :: xs : List (List Char)) ≠ [] := by simp
    unfold renderPath
    cases abs with
    | false =>
      show pathParts ⟨joinWithSlash (x :: xs)⟩ = _
      unfold pathParts
      rw [show (⟨joinWithSlash (x :: xs)⟩ : String).data = joinWithSlash (x :: xs) from rfl]
      rw [splitSlash_joinWithSlash hne hsl]
    | true =>
      show pathParts ⟨'/' :: joinWithSlash (x :: xs)⟩ = _
      unfold pathParts
      rw [show (⟨'/' :: joinWithSlash (x :: xs)⟩ : String).data =
        '/' :: joinWithSlash (x :: xs) from rfl]
      have : splitSlash ('/' :: joinWithSlash (x :: xs)) =
          [] :: splitSlash (joinWithSlash (x :: xs)) := by
        simp only [splitSlash]
        simp
      rw [this, splitSlash_joinWithSlash hne hsl]
      rw [List.filter_cons_of_neg (by simp [keepPart])]

theorem pathParts_joinPath (root : String) (extras : List String)
    (hr : root ≠ "")
    (hroot : ∀ p ∈ splitSlash root.data, p ≠ ['.'] ∧ p ≠ ['.', '.'])
    (hexne : ∀ e ∈ extras, e ≠ "")
    (hex : ∀ e ∈ extras, ∀ p ∈ splitSlash e.data, p ≠ ['.', '.']) :
    pathParts (joinPath (root :: extras)) =
      pathParts root ++
        ((extras.map (fun e => splitSlash e.data)).flatten.filter keepPart) := by
  have hfilter : (root :: extras).filter (fun p => p != "") = root :: extras := by
    rw [List.filter_eq_self]
    intro a ha
    rcases List.mem_cons.mp ha with h | h
    · simp [h, hr]
    · simp [hexne a h]
  have hflat : ((root :: extras).map (fun p => splitSlash p.data)).flatten =
      splitSlash root.data ++ (extras.map (fun e => splitSlash e.data)).flatten := by
    simp
  have hnodd : ∀ p ∈ ((root :: extras).map (fun p => splitSlash p.data)).flatten,
      p ≠ ['.', '.'] := by
    intro p hp
    rw [hflat] at hp
    rcases List.mem_append.mp hp with h | h
    · exact (hroot p h).2
    · rcases List.mem_flatten.mp h with ⟨l, hl, hpl⟩
      rcases List.mem_map.mp hl with ⟨e, he, rfl⟩
      exact hex e he p hpl
  have hslash : ∀ p ∈ ((root :: extras).map (fun p => splitSlash p.data)).flatten,
      '/' ∉ p := by
    intro p hp
    rcases List.mem_flatten.mp hp with ⟨l, hl, hpl⟩
    rcases List.mem_map.mp hl with ⟨e, _, rfl⟩
    exact slash_not_mem_splitSlash e.data p hpl
  have hnorm : normalizeParts (startsWithSlash root)
      ((root :: extras).map (fun p => splitSlash p.data)).flatten =
      (((root :: extras).map (fun p => splitSlash p.data)).flatten).filter keepPart :=
    normalizeParts_no_upward hnodd
  have hjp : joinPath (root :: extras) =
      ⟨renderPath (startsWithSlash root)
        ((((root :: extras).map (fun p => splitSlash p.data)).flatten).filter
          keepPart)⟩ := by
    unfold joinPath
    rw [hfilter]
    dsimp only
    rw [hnorm]
  rw [hjp]
  have hslash2 : ∀ p ∈ (((root :: extras).map
      (fun p => splitSlash p.data)).flatten).filter keepPart, '/' ∉ p := by
    intro p hp
    exact hslash p (List.mem_filter.mp hp).1
  rw [pathParts_render hslash2]
  rw [List.filter_filter]
  have : (fun a => keepPart a && keepPart a) = keepPart := by
    funext a
    rw [Bool.and_self]
  rw [this]
  rw [hflat, List.filter_append]
  rfl

theorem underRoot_joinPath (root : String) (extras : List String)
    (hr : root ≠ "")
    (hroot : ∀ p ∈ splitSlash root.data, p ≠ ['.'] ∧ p ≠ ['.', '.'])
    (hexne : ∀ e ∈ extras, e ≠ "")
    (hex : ∀ e ∈ extras, ∀ p ∈ splitSlash e.data, p ≠ ['.', '.']) :
    underRoot root (joinPath (root :: extras)) = true := by
  unfold underRoot
  rw [pathParts_joinPath root extras hr hroot hexne hex]
  exact isPrefixOf_append_self _ _

theorem digitChar_ne_slash (n : Nat) : digitChar n ≠ '/' := by
  unfold digitChar
  split <;> decide

theorem jsToLower_dashify_ne_slash (c : Char) :
    jsToLower (dashifyChar c) ≠ '/' := by
  by_cases h : isAsciiAlphanum c = true
  · have hdc : dashifyChar c = c := by simp [dashifyChar, h]
    rw [hdc]
    unfold jsToLower
    split <;> first
      | decide
      | (intro heq; rw [heq] at h; exact absurd h (by decide))
  · have hdc : dashifyChar c = '-' := by simp [dashifyChar, h]
    rw [hdc]
    decide

theorem slash_not_mem_generateFilename (url : String) (y m d : Nat) :
    '/' ∉ (generateFilename url y m d).data := by
  have hdata : (generateFilename url y m d).data =
      sanitizeCore url.data ++ "-".data ++ datestampChars y m d ++ ".md".data := by
    simp [generateFilename, String.data_append, sanitizeFilename, formatDatestamp]
  rw [hdata]
  intro hmem
  rcases List.mem_append.mp hmem with h | h
  · rcases List.mem_append.mp h with h' | h'
    · rcases List.mem_append.mp h' with h'' | h''
      · unfold sanitizeCore at h''
        rcases List.mem_map.mp h'' with ⟨c1, hc1, hceq⟩
        rcases List.mem_map.mp hc1 with ⟨c, _, rfl⟩
        exact jsToLower_dashify_ne_slash c hceq
      · simp at h''
    · unfold datestampChars at h'
      simp only [List.mem_cons, List.not_mem_nil, or_false] at h'
      rcases h' with h | h | h | h | h | h | h | h <;>
        exact digitChar_ne_slash _ h.symm
  · simp at h

theorem generateFilename_ne_empty (url : String) (y m d : Nat) :
    generateFilename url y m d ≠ "" := by
  intro heq
  have hdata : (generateFilename url y m d).data =
      sanitizeCore url.data ++ "-".data ++ datestampChars y m d ++ ".md".data := by
    simp [generateFilename, String.data_append, sanitizeFilename, formatDatestamp]
  rw [heq] at hdata
  have hlen := congrArg List.length hdata
  simp [datestampChars] at hlen

theorem generateFilename_data_ne_dotdot (url : String) (y m d : Nat) :
    (generateFilename url y m d).data ≠ ['.', '.'] := by
  intro heq
  have hdata : (generateFilename url y m d).data =
      sanitizeCore url.data ++ "-".data ++ datestampChars y m d ++ ".md".data := by
    simp [generateFilename, String.data_append, sanitizeFilename, formatDatestamp]
  rw [heq] at hdata
  have hlen := congrArg List.length hdata
  simp [datestampChars] at hlen

theorem splitSlash_generateFilename (url : String) (y m d : Nat) :
    splitSlash (generateFilename url y m d).data =
      [(generateFilename url y m d).data] :=
  splitSlash_of_slashfree (slash_not_mem_generateFilename url y m d)

/-- Turn a `noUpwards` Bool fact into segment-wise disequalities. -/
theorem noUpwards_elim {s : String} (h : noUpwards s = true) :
    ∀ p ∈ splitSlash s.data, p ≠ ['.', '.'] := by
  intro p hp
  have := (List.all_eq_true.mp h) p hp
  simpa using this

/-- Turn a `cleanParts` Bool fact into segment-wise disequalities. -/
theorem cleanParts_elim {s : String} (h : cleanParts s = true) :
    ∀ p ∈ splitSlash s.data, p ≠ ['.'] ∧ p ≠ ['.', '.'] := by
  intro p hp
  have := (List.all_eq_true.mp h) p hp
  unfold goodPart at this
  constructor <;> simp_all

/-- C2 amended: for a canonical root (no `"."`/`".."` segments) and
user-supplied subdirectory/name values containing no `".."` segment, the
resolved paths of `download_markdown`, `list_downloaded_files` and
`create_subdirectory` all lie under the configured root; a `".."` segment,
however, escapes it (no containment check exists in the code). -/
theorem subdir_containment_for_upward_free
    (root sub name url : String) (y m d : Nat)
    (hr : root ≠ "") (hs : sub ≠ "") (hn : name ≠ "")
    (hclean : cleanParts root = true)
    (hsub : noUpwards sub = true) (hname : noUpwards name = true) :
    underRoot root (resolveDownloadPath root url (some sub) y m d) = true ∧
    underRoot root (resolveListingDir root (some sub)) = true ∧
    underRoot root (resolveSubdirectoryPath root name) = true := by
  have hroot := cleanParts_elim hclean
  have hsub' := noUpwards_elim hsub
  have hname' := noUpwards_elim hname
  have hflne := generateFilename_ne_empty url y m d
  have hfl : ∀ p ∈ splitSlash (generateFilename url y m d).data,
      p ≠ ['.', '.'] := by
    intro p hp
    rw [splitSlash_generateFilename] at hp
    rcases List.mem_singleton.mp hp with rfl
    exact generateFilename_data_ne_dotdot url y m d
  refine ⟨?_, ?_, ?_⟩
  · show underRoot root (if sub = "" then joinPath [root, generateFilename url y m d]
      else joinPath [root, sub, generateFilename url y m d]) = true
    rw [if_neg hs]
    apply underRoot_joinPath root [sub, generateFilename url y m d] hr hroot
    · intro e he
      rcases List.mem_cons.mp he with rfl | he'
      · exact hs
      · rcases List.mem_singleton.mp he' with rfl
        exact hflne
    · intro e he
      rcases List.mem_cons.mp he with rfl | he'
      · exact hsub'
      · rcases List.mem_singleton.mp he' with rfl
        exact hfl
  · show underRoot root (if sub = "" then root else joinPath [root, sub]) = true
    rw [if_neg hs]
    apply underRoot_joinPath root [sub] hr hroot
    · intro e he
      rcases List.mem_singleton.mp he with rfl
      exact hs
    · intro e he
      rcases List.mem_singleton.mp he with rfl
      exact hsub'
  · unfold resolveSubdirectoryPath
    apply underRoot_joinPath root [name] hr hroot
    · intro e he
      rcases List.mem_singleton.mp he with rfl
      exact hn
    · intro e he
      rcases List.mem_singleton.mp he with rfl
      exact hname'

/-- Counterexample to C2 as stated: the `".."` segments of a user-supplied
`create_subdirectory` name escape the configured root — the resolved path
is `/home/etc`, not under `/home/user/.markdown-downloads`. -/
theorem subdir_containment_counterexample :
    resolveSubdirectoryPath "/home/user/.markdown-downloads" "../../etc" =
      "/home/etc" ∧
    underRoot "/home/user/.markdown-downloads"
      (resolveSubdirectoryPath "/home/user/.markdown-downloads" "../../etc") =
      false := by
  constructor <;> rfl

/-- Witness for the amended C2 at concrete benign inputs. -/
theorem subdir_containment_for_upward_free_witness :
    ("/home/user/.markdown-downloads" ≠ "" ∧ "notes" ≠ "" ∧ "projects" ≠ "" ∧
      cleanParts "/home/user/.markdown-downloads" = true ∧
      noUpwards "notes" = true ∧ noUpwards "projects" = true) ∧
    (underRoot "/home/user/.markdown-downloads"
        (resolveDownloadPath "/home/user/.markdown-downloads"
          "https://example.com/a" (some "notes") 2026 1 15) = true ∧
      underRoot "/home/user/.markdown-downloads"
        (resolveListingDir "/home/user/.markdown-downloads" (some "notes")) = true ∧
      underRoot "/home/user/.markdown-downloads"
        (resolveSubdirectoryPath "/home/user/.markdown-downloads" "projects") =
        true) :=
  ⟨⟨by decide, by decide, by decide, by decide, by decide, by decide⟩,
    subdir_containment_for_upward_free "/home/user/.markdown-downloads"
      "notes" "projects" "https://example.com/a" 2026 1 15
      (by decide) (by decide) (by decide) (by decide) (by decide) (by decide)⟩

end MarkdownDownloader
